import Mathlib

/-!
Shallow embedding of the PodServe service-supervision core
(`python-harmony/src/podserve/core/{service,config,utils}.py` and
`python-unified/src/podserve/core/health.py`) and proofs about the frozen
claims on its specification.

Side effects (logging, signals, subprocess operations) are modelled as an
explicit event trace; the behaviour of the outside world (subprocess exit
codes, probe results, process liveness) is passed in as explicit data so
every definition is executable.
-/

namespace PodServe

/-- Log levels of the Python `logging` module as used by the code. -/
inductive Level where
  | debug
  | info
  | warning
  | error
  deriving Repr, DecidableEq

/-- Structured content of the log lines the code emits.  Payload-carrying
constructors keep the data (missing keys, exit codes, probe names) that the
claims talk about; fixed strings stand for the remaining literal messages. -/
inductive LogMsg where
  | text (s : String)
  | missingVars (vars : List String)
  | processExited (pid : Nat) (code : Int)
  | terminatingProcess (pid : Nat)
  | forceKilling (pid : Nat)
  | stopError (msg : String)
  | probeRaised (name : String) (msg : String)
  | failedChecks (names : List String)
  | runningCommand (cmd : List String)
  | cmdOut (line : String)
  | cmdErr (line : String)
  | cmdFailed (returncode : Int)
  | cmdError (cmd : List String) (msg : String)
  | succeededOnAttempt (n : Nat)
  | attemptFailed (attempt total : Nat)
  | failedAfterAttempts (total : Nat)
  | cmdStderr (stderr : String)
  | unexpectedError (msg : String)
  deriving Repr, DecidableEq

/-- Observable actions of the supervision core: log lines, lifecycle hook
invocations, signals sent to processes, sleeps, and the health listener
starting or stopping. -/
inductive Event where
  | log (lvl : Level) (m : LogMsg)
  | healthStart
  | healthStop
  | configureCall
  | startServiceCall
  | stopServiceCall
  | spawn (cmd : List String) (pid : Nat)
  | sigterm (pid : Nat)
  | sigkill (pid : Nat)
  | waitProc (pid : Nat)
  | sleep
  | enterLoop
  deriving Repr, DecidableEq

/-! ## ConfigManager (`core/config.py`) -/

/-- State of `ConfigManager`: after `load_environment_variables` the `config` dict maps
keys to string values.  Modelled as an association list: `get` returns the
first binding.  An absent binding models a key neither in the environment nor
among the defaults. -/
structure ConfigManager where
  config : List (String × String)
  deriving Repr, DecidableEq

/-- Model of `ConfigManager.get(key)` with the default `None`. -/
def ConfigManager.get (c : ConfigManager) (key : String) : Option String :=
  (c.config.find? (fun p => p.1 = key)).map Prod.snd

/-- Python truthiness of an optional string value: `None` and `''` are falsy,
every non-empty string is truthy. -/
def truthy : Option String → Bool
  | none => false
  | some v => v ≠ ""

/-- The `missing_vars` list built by `validate_required_vars`: every required
key whose configured value is falsy (`if not self.get(var)`), in order. -/
def ConfigManager.missingVars (c : ConfigManager) (required : List String) :
    List String :=
  required.filter (fun v => !truthy (c.get v))

/-- Model of `ConfigManager.validate_required_vars`: logs the missing keys at error
level and returns false when any required key is falsy, true otherwise. -/
def ConfigManager.validate_required_vars (c : ConfigManager)
    (required : List String) : Bool × List Event :=
  let missing := c.missingVars required
  if missing.isEmpty then (true, [])
  else (false, [.log .error (.missingVars missing)])

/-! ## BaseService state (`core/service.py`) -/

/-- A tracked subprocess (`subprocess.Popen` handle in `self.processes`),
together with the world's answers to the operations the supervisor performs
on it: `poll` is the exit-code observation `handle.poll()` returns during the
current scan (`none` = still running), and `exitsWithinGrace` says whether
`handle.wait(timeout=5)` returns before the timeout once the process has been
sent SIGTERM. -/
structure Proc where
  pid : Nat
  poll : Option Int
  exitsWithinGrace : Bool
  deriving Repr, DecidableEq

/-- The mutable state of a `BaseService` instance relevant to the claims. -/
structure ServiceState where
  service_name : String
  running : Bool
  shutdown_requested : Bool
  processes : List Proc
  deriving Repr, DecidableEq

/-- Outcome of the abstract `stop_service()` hook: it either returns a boolean
or raises an exception with a message. -/
inductive StopServiceOutcome where
  | returns (ok : Bool)
  | raises (msg : String)
  deriving Repr, DecidableEq

/-- Events of terminating one tracked process in `BaseService.stop`'s loop:
a process already exited (`poll() is not None`) is skipped; a live one gets
SIGTERM (`process.terminate()`), a 5-second `wait`, and on timeout a warning,
SIGKILL (`process.kill()`) and a final `wait`. -/
def terminateTracked (p : Proc) : List Event :=
  if p.poll.isNone then
    [.log .info (.terminatingProcess p.pid), .sigterm p.pid, .waitProc p.pid] ++
      (if p.exitsWithinGrace then []
       else [.log .warning (.forceKilling p.pid), .sigkill p.pid, .waitProc p.pid])
  else []

/-- Model of `BaseService.stop`.  Not running: return true at once.  Otherwise: log,
clear `running`, stop the health checker, call `stop_service()` (a falsy
return is logged as a warning and teardown continues; a raised exception is
caught by the surrounding handler, logged as an error, and `stop` returns
false without reaching the process-termination loop), then terminate each
remaining live tracked process with escalation and clear the tracked list. -/
def BaseService.stop (s : ServiceState) (o : StopServiceOutcome) :
    Bool × ServiceState × List Event :=
  if !s.running then (true, s, [])
  else
    let s1 : ServiceState := { s with running := false }
    let pre : List Event := [.log .info (.text "Stopping service"), .healthStop]
    match o with
    | .raises msg =>
        (false, s1, pre ++ [.stopServiceCall, .log .error (.stopError msg)])
    | .returns ok =>
        let stopEv : List Event :=
          [.stopServiceCall] ++
            (if ok then [] else [.log .warning (.text "Service-specific stop failed")])
        let termEv : List Event := s1.processes.flatMap terminateTracked
        (true, { s1 with processes := [] },
          pre ++ stopEv ++ termEv ++ [.log .info (.text "service stopped")])

/-- The abstract hooks and world behaviour `BaseService.start` consults:
the subclass's required config keys, the result of its
`validate_service_config()`, of `configure()`, whether
`health_checker.start()` raises (e.g. the port cannot be bound), and the
result of `start_service()`. -/
structure StartBehavior where
  required_vars : List String
  service_config_valid : Bool
  configure_ok : Bool
  health_start_raises : Bool
  start_service_ok : Bool
  deriving Repr, DecidableEq

/-- Model of `BaseService.validate_configuration`: required keys first (failure
short-circuits), then the service-specific validation hook. -/
def BaseService.validate_configuration (c : ConfigManager) (b : StartBehavior) :
    Bool × List Event :=
  let (ok, ev) := c.validate_required_vars b.required_vars
  if !ok then (false, ev) else (b.service_config_valid, ev)

/-- Model of `BaseService.start` up to entry into the service loop.  Validation
failure, `configure()` failure, a raising `health_checker.start()` and a
`start_service()` failure each return false; on success `running` is set and
the main loop (modelled separately by `service_loop_tick`) is entered. -/
def BaseService.start (s : ServiceState) (c : ConfigManager) (b : StartBehavior) :
    Bool × ServiceState × List Event :=
  let ev0 : List Event := [.log .info (.text "Starting service")]
  let (vok, vev) := BaseService.validate_configuration c b
  if !vok then
    (false, s, ev0 ++ vev ++ [.log .error (.text "Configuration validation failed")])
  else
    let ev1 := ev0 ++ vev ++ [.log .info (.text "Configuring service"), .configureCall]
    if !b.configure_ok then
      (false, s, ev1 ++ [.log .error (.text "Service configuration failed")])
    else if b.health_start_raises then
      (false, s, ev1 ++ [.log .error (.text "Error starting service")])
    else
      let ev2 := ev1 ++ [.healthStart, .log .info (.text "Starting service process"),
        .startServiceCall]
      if !b.start_service_ok then
        (false, s, ev2 ++ [.log .error (.text "Failed to start service process")])
      else
        (true, { s with running := true },
          ev2 ++ [.log .info (.text "service started successfully"), .enterLoop])

/-- One iteration of `BaseService.service_loop` while running and no shutdown
was requested: run `health_check()` (a false result only logs a warning),
scan the tracked processes, log the exit code of each one whose handle has
exited and remove it, then sleep one second. -/
def service_loop_tick (s : ServiceState) (health_ok : Bool) :
    ServiceState × List Event :=
  if s.running && !s.shutdown_requested then
    let hev : List Event :=
      if !health_ok then [.log .warning (.text "Health check failed")] else []
    let pev : List Event := s.processes.filterMap
      (fun p => p.poll.map (fun c => Event.log .warning (.processExited p.pid c)))
    ({ s with processes := s.processes.filter (fun p => p.poll.isNone) },
      hev ++ pev ++ [.sleep])
  else (s, [])

/-! ## HealthChecker (`python-unified core/health.py`) -/

/-- What one invocation of a registered probe does: return true, return
false, or raise an exception with a message.  Probes are impure Python
callables, so each evaluation pass is parametrised by a snapshot
`String → ProbeResult` giving each registered probe's behaviour at that
moment. -/
inductive ProbeResult where
  | ok
  | fail
  | raises (msg : String)
  deriving Repr, DecidableEq

/-- State of a `HealthChecker`: the registered check names (dict keys in
insertion order; the probe bodies live in the per-evaluation snapshot),
the cached `health_status` / `ready_status` flags and the time of the last
aggregate health evaluation. -/
structure HealthChecker where
  service_name : String
  names : List String
  health_status : Bool
  ready_status : Bool
  last_health_check : Option Nat
  deriving Repr, DecidableEq

/-- Model of `HealthChecker.__init__`: empty caches (both status flags false, no last
check) with the two default checks registered by `register_default_checks`. -/
def HealthChecker.init (service_name : String) : HealthChecker :=
  { service_name := service_name
    names := ["log_directory", "config_directory"]
    health_status := false
    ready_status := false
    last_health_check := none }

/-- Model of `HealthChecker.register_check`: adds the name to the dict; re-registering
an existing name overwrites the probe (held in the snapshot) and keeps the
key's position. -/
def HealthChecker.register_check (h : HealthChecker) (name : String) :
    HealthChecker :=
  if name ∈ h.names then h else { h with names := h.names ++ [name] }

/-- The `failed_checks` list built by `is_healthy`: every registered check
whose probe returned false or raised, in registration order. -/
def failedOf (names : List String) (snap : String → ProbeResult) : List String :=
  names.filter (fun n => snap n ≠ .ok)

/-- Model of `HealthChecker.is_healthy`: runs every probe (a raising probe is logged
at warning level and counted as failed), caches the aggregate verdict in
`health_status`, stamps `last_health_check`, logs the failed list if
non-empty, and returns true iff no probe failed or raised. -/
def HealthChecker.is_healthy (h : HealthChecker) (snap : String → ProbeResult)
    (now : Nat) : Bool × HealthChecker × List Event :=
  let raiseEv : List Event := h.names.filterMap (fun n =>
    match snap n with
    | .raises m => some (.log .warning (.probeRaised n m))
    | _ => none)
  let failed := failedOf h.names snap
  let status := failed.isEmpty
  let failEv : List Event :=
    if failed.isEmpty then [] else [.log .warning (.failedChecks failed)]
  (status,
    { h with health_status := status, last_health_check := some now },
    raiseEv ++ failEv)

/-- One entry of the `checks` map in the detailed status document. -/
structure CheckEntry where
  status : String
  healthy : Bool
  error : Option String
  deriving Repr, DecidableEq

/-- How `get_detailed_status` renders one probe invocation: a returned value
gives "pass"/"fail", a raised exception gives an "error" entry carrying the
message. -/
def checkEntry : ProbeResult → CheckEntry
  | .ok => { status := "pass", healthy := true, error := none }
  | .fail => { status := "fail", healthy := false, error := none }
  | .raises m => { status := "error", healthy := false, error := some m }

/-- The status document served on `GET /status` (the service-specific extra
fields merged in by `get_service_status` are orthogonal to the claims and
omitted). -/
structure StatusDoc where
  service : String
  timestamp : Nat
  healthy : Bool
  ready : Bool
  last_check : Option Nat
  checks : List (String × CheckEntry)
  deriving Repr, DecidableEq

/-- Model of `HealthChecker.get_detailed_status`: reports the *cached* `health_status`
and `ready_status` fields, then re-runs every registered probe independently
to fill the `checks` map. -/
def HealthChecker.get_detailed_status (h : HealthChecker)
    (snap : String → ProbeResult) (now : Nat) : StatusDoc :=
  { service := h.service_name
    timestamp := now
    healthy := h.health_status
    ready := h.ready_status
    last_check := h.last_health_check
    checks := h.names.map (fun n => (n, checkEntry (snap n))) }

/-- Model of `ServiceHealthChecker.is_ready`: not healthy ⇒ false; healthy but below
the minimum uptime (`uptime_ok = false` models
`time.time() - start_time < MIN_READY_TIME`) ⇒ false; otherwise sets
`ready_status := true` and returns true.  A false verdict never clears
`ready_status`. -/
def ServiceHealthChecker.is_ready (h : HealthChecker)
    (snap : String → ProbeResult) (now : Nat) (uptime_ok : Bool) :
    Bool × HealthChecker × List Event :=
  let (healthy, h1, ev) := h.is_healthy snap now
  if !healthy then (false, h1, ev)
  else if !uptime_ok then (false, h1, ev)
  else (true, { h1 with ready_status := true }, ev)

/-! ## Process utilities (`core/utils.py`) -/

/-- Outcome of one `subprocess.run(command, check=True, ...)` attempt inside
`run_command_with_retry`: success (exit 0), a `CalledProcessError` with the
captured stderr (possibly empty/absent), or some other exception. -/
inductive AttemptOutcome where
  | success
  | calledError (stderr : Option String)
  | otherError (msg : String)
  deriving Repr, DecidableEq

/-- Loop body of `run_command_with_retry` from attempt index `attempt` with
`fuel` iterations of `range(retries+1)` left.  Returns the boolean result,
the number of attempts actually executed, and the event trace. -/
def retryGo (outcomes : Nat → AttemptOutcome) (retries delay : Nat) :
    Nat → Nat → Bool × Nat × List Event
  | _, 0 => (false, 0, [])
  | attempt, fuel + 1 =>
    match outcomes attempt with
    | .success =>
        (true, attempt + 1,
          if attempt > 0 then [.log .info (.succeededOnAttempt (attempt + 1))] else [])
    | .calledError stderr =>
        if attempt < retries then
          let rest := retryGo outcomes retries delay (attempt + 1) fuel
          (rest.1, rest.2.1,
            [.log .warning (.attemptFailed (attempt + 1) (retries + 1))] ++
              (if delay > 0 then [.sleep] else []) ++ rest.2.2)
        else
          (false, attempt + 1,
            [.log .error (.failedAfterAttempts (retries + 1))] ++
              (match stderr with
               | some e => [.log .error (.cmdStderr e)]
               | none => []))
    | .otherError msg => (false, attempt + 1, [.log .error (.unexpectedError msg)])

/-- Model of `run_command_with_retry(command, retries, delay)`: the `for attempt in
range(retries + 1)` loop.  `outcomes i` is what the i-th invocation of the
command does. -/
def run_command_with_retry (outcomes : Nat → AttemptOutcome)
    (retries : Nat) (delay : Nat) : Bool × Nat × List Event :=
  retryGo outcomes retries delay 0 (retries + 1)

/-- Polling loop of `terminate_process_gracefully` (`for _ in range(timeout)`):
`alive i` is what the (i+1)-th `is_process_running` call observes (index 0
is the initial pre-signal check).  Returns whether the process was seen dead
during the loop and the sleep trace. -/
def termLoop (alive : Nat → Bool) : Nat → Nat → Bool × List Event
  | _, 0 => (false, [])
  | idx, r + 1 =>
    if !alive idx then (true, [])
    else
      let rest := termLoop alive (idx + 1) r
      (rest.1, .sleep :: rest.2)

/-- Model of `terminate_process_gracefully(pid, timeout)`: a dead pid returns true at
once with no signal; otherwise SIGTERM, up to `timeout` one-second liveness
polls, then — if a final check still sees the process — SIGKILL, one more
second, and the result of the last liveness check (`afterKillAlive`). -/
def terminate_process_gracefully (pid : Nat) (alive : Nat → Bool)
    (afterKillAlive : Bool) (timeout : Nat) : Bool × List Event :=
  if !alive 0 then (true, [])
  else
    let (gone, ev) := termLoop alive 1 timeout
    if gone then (true, .sigterm pid :: ev)
    else if alive (timeout + 1) then
      (!afterKillAlive, .sigterm pid :: ev ++ [.log .warning (.forceKilling pid),
        .sigkill pid, .sleep])
    else (true, .sigterm pid :: ev)

/-! ## `BaseService.run_subprocess` (`core/service.py`) -/

/-- What the spawned command does, as observed by `run_subprocess`: the
spawn call (`Popen`/`run`) raises, or the command runs — in background mode
yielding the tracked handle `p`, in foreground mode finishing with
`returncode` and the captured, already-split output lines. -/
inductive CmdBehavior where
  | raisesSpawn (msg : String)
  | completes (p : Proc) (returncode : Int) (stdoutLines stderrLines : List String)
  deriving Repr, DecidableEq

/-- Result of `run_subprocess`: a `Popen` handle in background mode, `True`
or `False` in foreground mode (and `False` whenever the spawn raised). -/
inductive SubprocResult where
  | handle (pid : Nat)
  | success
  | failure
  deriving Repr, DecidableEq

/-- Model of `BaseService.run_subprocess(command, capture_output, background)`.  Any
exception from the spawn is caught and converted into a `False` return plus
an error log; background mode appends the handle to the tracked list;
foreground mode logs captured stdout at info and stderr at warning level and
returns `True` iff the exit code is zero. -/
def run_subprocess (s : ServiceState) (cmd : List String)
    (captureOutput background : Bool) (b : CmdBehavior) :
    SubprocResult × ServiceState × List Event :=
  let ev0 : List Event := [.log .info (.runningCommand cmd)]
  match b with
  | .raisesSpawn msg => (.failure, s, ev0 ++ [.log .error (.cmdError cmd msg)])
  | .completes p rc outLines errLines =>
    if background then
      (.handle p.pid, { s with processes := s.processes ++ [p] },
        ev0 ++ [.spawn cmd p.pid])
    else
      let outEv : List Event :=
        if captureOutput then
          outLines.filterMap (fun l =>
            if l.trim ≠ "" then some (.log .info (.cmdOut l)) else none) ++
          errLines.filterMap (fun l =>
            if l.trim ≠ "" then some (.log .warning (.cmdErr l)) else none)
        else []
      if rc ≠ 0 then (.failure, s, ev0 ++ outEv ++ [.log .error (.cmdFailed rc)])
      else (.success, s, ev0 ++ outEv)

/-! ## Claim C4 -/

/-- C4: `stop()` is idempotent — whenever the supervisor is not in the
running state, `stop()` returns true immediately with no side effects: the
state (including the tracked-process set) is unchanged and no event (no
signal, no listener shutdown) is emitted; hence two consecutive calls on a
never-started service both return true. -/
theorem stop_idempotent_when_not_running (s : ServiceState)
    (o o' : StopServiceOutcome) (h : s.running = false) :
    BaseService.stop s o = (true, s, []) ∧
      BaseService.stop (BaseService.stop s o).2.1 o' = (true, s, []) := by
  have h1 : BaseService.stop s o = (true, s, []) := by
    simp [BaseService.stop, h]
  refine ⟨h1, ?_⟩
  rw [h1]
  simp [BaseService.stop, h]

/-- Witness for C4 at a concrete never-started service. -/
theorem stop_idempotent_when_not_running_witness :
    BaseService.stop ⟨"mail", false, false, []⟩ (.returns true) =
        (true, ⟨"mail", false, false, []⟩, []) ∧
      BaseService.stop
          (BaseService.stop ⟨"mail", false, false, []⟩ (.returns true)).2.1
          (.returns true) =
        (true, ⟨"mail", false, false, []⟩, []) :=
  stop_idempotent_when_not_running ⟨"mail", false, false, []⟩
    (.returns true) (.returns true) rfl

/-! ## Claim C1 -/

/-- A concrete running supervisor with one live tracked process (pid 42)
that ignores the 5-second grace period. -/
def c1state : ServiceState :=
  { service_name := "dns", running := true, shutdown_requested := false
    processes := [{ pid := 42, poll := none, exitsWithinGrace := false }] }

/-- Counterexample to C1: on a running service, `stop()` shuts the health
listener down *before* invoking `stop_service()` (the claim states the
opposite order), and a `stop_service()` that raises is logged at error
level and aborts teardown — `stop()` returns false and the live tracked
process is never signalled. -/
theorem stop_claimed_order_counterexample :
    Event.stopServiceCall ∈ (BaseService.stop c1state (.returns true)).2.2 ∧
      Event.healthStop ∈ (BaseService.stop c1state (.returns true)).2.2 ∧
      ¬ ((BaseService.stop c1state (.returns true)).2.2.indexOf
            Event.stopServiceCall <
          (BaseService.stop c1state (.returns true)).2.2.indexOf
            Event.healthStop) ∧
      (BaseService.stop c1state (.raises "boom")).1 = false ∧
      Event.sigterm 42 ∉ (BaseService.stop c1state (.raises "boom")).2.2 ∧
      Event.log .warning (.stopError "boom") ∉
        (BaseService.stop c1state (.raises "boom")).2.2 ∧
      Event.log .error (.stopError "boom") ∈
        (BaseService.stop c1state (.raises "boom")).2.2 := by
  decide

/-- C1 as amended: when the supervisor is running, `stop()` first shuts down
the health HTTP listener, then invokes the daemon-specific `stop_service()`,
then terminates every remaining live tracked subprocess with escalation
(SIGTERM, bounded wait, SIGKILL for a process that outlives the grace
period); a `stop_service()` returning failure is logged as a warning and
teardown continues, while a `stop_service()` that raises is caught, logged
as an error, and makes `stop()` return false without signalling the tracked
processes. -/
theorem stop_teardown_health_listener_first (s : ServiceState)
    (o : StopServiceOutcome) (h : s.running = true) :
    (BaseService.stop s o).2.2.take 3 =
        [Event.log .info (.text "Stopping service"), Event.healthStop,
          Event.stopServiceCall] ∧
      (BaseService.stop s o).2.1.running = false ∧
      (∀ ok, o = .returns ok →
        (BaseService.stop s o).1 = true ∧
          (BaseService.stop s o).2.1.processes = [] ∧
          (ok = false →
            Event.log .warning (.text "Service-specific stop failed") ∈
              (BaseService.stop s o).2.2) ∧
          (∀ p ∈ s.processes, p.poll = none →
            Event.sigterm p.pid ∈ (BaseService.stop s o).2.2 ∧
              (p.exitsWithinGrace = false →
                Event.sigkill p.pid ∈ (BaseService.stop s o).2.2))) ∧
      (∀ msg, o = .raises msg →
        (BaseService.stop s o).1 = false ∧
          Event.log .error (.stopError msg) ∈ (BaseService.stop s o).2.2 ∧
          ∀ pid, Event.sigterm pid ∉ (BaseService.stop s o).2.2) := by
  refine ⟨?_, ?_, ?_, ?_⟩
  · cases o <;> simp [BaseService.stop, h]
  · cases o <;> simp [BaseService.stop, h]
  · rintro ok rfl
    refine ⟨by simp [BaseService.stop, h], by simp [BaseService.stop, h],
      ?_, ?_⟩
    · rintro rfl
      simp [BaseService.stop, h]
    · intro p hp hpoll
      have hterm : Event.sigterm p.pid ∈ terminateTracked p := by
        simp [terminateTracked, hpoll]
      have hflat : Event.sigterm p.pid ∈ s.processes.flatMap terminateTracked :=
        List.mem_flatMap.mpr ⟨p, hp, hterm⟩
      constructor
      · simp [BaseService.stop, h]
        exact ⟨p, hp, hterm⟩
      · intro hgrace
        have hkill : Event.sigkill p.pid ∈ terminateTracked p := by
          simp [terminateTracked, hpoll, hgrace]
        have hflatk : Event.sigkill p.pid ∈
            s.processes.flatMap terminateTracked :=
          List.mem_flatMap.mpr ⟨p, hp, hkill⟩
        simp [BaseService.stop, h]
        exact ⟨p, hp, hkill⟩
  · rintro msg rfl
    simp [BaseService.stop, h]

/-- Witness for the amended C1: at the concrete running service, a failing
(but returning) `stop_service()` still yields a successful teardown in which
the live process is SIGTERMed and, having outlived the grace period,
SIGKILLed. -/
theorem stop_teardown_health_listener_first_witness :
    (BaseService.stop c1state (.returns false)).1 = true ∧
      Event.log .warning (.text "Service-specific stop failed") ∈
        (BaseService.stop c1state (.returns false)).2.2 ∧
      Event.sigterm 42 ∈ (BaseService.stop c1state (.returns false)).2.2 ∧
      Event.sigkill 42 ∈ (BaseService.stop c1state (.returns false)).2.2 := by
  have H := stop_teardown_health_listener_first c1state (.returns false) rfl
  have H3 := H.2.2.1 false rfl
  have hp : (⟨42, none, false⟩ : Proc) ∈ c1state.processes := by decide
  have Hp := H3.2.2.2 ⟨42, none, false⟩ hp rfl
  exact ⟨H3.1, H3.2.2.1 rfl, Hp.1, Hp.2 rfl⟩

/-! ## Claims C2 and C9 -/

/-- Lemma: `validate_required_vars` evaluates to a failure with the missing-keys
log line as soon as one required key is falsy. -/
theorem validate_required_vars_fails (c : ConfigManager)
    (required : List String) (k : String) (hk : k ∈ required)
    (hfal : truthy (c.get k) = false) :
    c.validate_required_vars required =
      (false, [.log .error (.missingVars (c.missingVars required))]) := by
  have hmem : k ∈ c.missingVars required :=
    List.mem_filter.mpr ⟨hk, by simp [hfal]⟩
  have hne : (c.missingVars required).isEmpty = false := by
    cases hmv : c.missingVars required with
    | nil => rw [hmv] at hmem; cases hmem
    | cons a l => simp
  simp [ConfigManager.validate_required_vars, hne]

/-- C2: for every service, if some required configuration key resolves to a
missing or empty (falsy) value, `start()` returns false, leaves the state —
in particular the tracked-process set — untouched, logs the missing keys at
error level, and emits no `configure()` call, no health-listener start, no
`start_service()` call, and no process spawn: validation fails before any of
those steps. -/
theorem start_missing_required_var (s : ServiceState) (c : ConfigManager)
    (b : StartBehavior) (k : String) (hk : k ∈ b.required_vars)
    (hfal : truthy (c.get k) = false) :
    (BaseService.start s c b).1 = false ∧
      (BaseService.start s c b).2.1 = s ∧
      Event.log .error (.missingVars (c.missingVars b.required_vars)) ∈
        (BaseService.start s c b).2.2 ∧
      Event.configureCall ∉ (BaseService.start s c b).2.2 ∧
      Event.healthStart ∉ (BaseService.start s c b).2.2 ∧
      Event.startServiceCall ∉ (BaseService.start s c b).2.2 ∧
      ∀ cmd pid, Event.spawn cmd pid ∉ (BaseService.start s c b).2.2 := by
  have hv := validate_required_vars_fails c b.required_vars k hk hfal
  simp [BaseService.start, BaseService.validate_configuration, hv]

/-- Witness for C2: a DNS service missing its required `DNS_DOMAIN` key. -/
theorem start_missing_required_var_witness :
    truthy ((ConfigManager.mk []).get "DNS_DOMAIN") = false ∧
      (BaseService.start ⟨"dns", false, false, []⟩ (ConfigManager.mk [])
          ⟨["DNS_DOMAIN"], true, true, false, true⟩).1 = false ∧
      Event.startServiceCall ∉
        (BaseService.start ⟨"dns", false, false, []⟩ (ConfigManager.mk [])
            ⟨["DNS_DOMAIN"], true, true, false, true⟩).2.2 := by
  have H := start_missing_required_var ⟨"dns", false, false, []⟩
    (ConfigManager.mk []) ⟨["DNS_DOMAIN"], true, true, false, true⟩
    "DNS_DOMAIN" (by decide) (by decide)
  exact ⟨by decide, H.1, H.2.2.2.2.2.1⟩

/-- C9: required-key validation treats a key bound to the empty string (or
absent altogether) as missing — `validate_required_vars` returns false and
reports the key in the missing list whenever `config.get(key)` is falsy, so
a required environment variable set to `""` still fails `start()`'s
validation. -/
theorem validate_required_vars_empty_is_missing (c : ConfigManager)
    (required : List String) (k : String) (hk : k ∈ required)
    (hv : c.get k = none ∨ c.get k = some "") :
    (c.validate_required_vars required).1 = false ∧
      k ∈ c.missingVars required ∧
      ∀ s b, b.required_vars = required → (BaseService.start s c b).1 = false := by
  have hfal : truthy (c.get k) = false := by
    rcases hv with hv | hv <;> simp [hv, truthy]
  refine ⟨by rw [validate_required_vars_fails c required k hk hfal],
    List.mem_filter.mpr ⟨hk, by simp [hfal]⟩, ?_⟩
  intro s b hb
  have hv' := validate_required_vars_fails c b.required_vars k (hb ▸ hk) hfal
  simp [BaseService.start, BaseService.validate_configuration, hv']

/-- Witness for C9: `MAIL_DOMAIN` explicitly set to the empty string. -/
theorem validate_required_vars_empty_is_missing_witness :
    ((ConfigManager.mk [("MAIL_DOMAIN", "")]).validate_required_vars
        ["MAIL_DOMAIN"]).1 = false ∧
      "MAIL_DOMAIN" ∈
        (ConfigManager.mk [("MAIL_DOMAIN", "")]).missingVars ["MAIL_DOMAIN"] ∧
      (BaseService.start ⟨"mail", false, false, []⟩
          (ConfigManager.mk [("MAIL_DOMAIN", "")])
          ⟨["MAIL_DOMAIN"], true, true, false, true⟩).1 = false := by
  have H := validate_required_vars_empty_is_missing
    (ConfigManager.mk [("MAIL_DOMAIN", "")]) ["MAIL_DOMAIN"] "MAIL_DOMAIN"
    (by decide) (Or.inr (by decide))
  exact ⟨H.1, H.2.1, H.2.2 ⟨"mail", false, false, []⟩
    ⟨["MAIL_DOMAIN"], true, true, false, true⟩ rfl⟩

/-! ## Claim C7 -/

/-- C7: in every monitoring-loop iteration, each tracked process whose
handle has exited is logged (warning level, with its pid and exit code) and
removed in that same tick, so the surviving entries are exactly those whose
handle still polls as running; and neither an exited daemon nor a failing
`health_check()` makes the supervisor stop or restart anything — the tick
changes no lifecycle flag and emits no stop, start, health-shutdown, spawn
or signal event. -/
theorem service_loop_tick_reaps_exited (s : ServiceState) (health_ok : Bool)
    (hr : s.running = true) (hs : s.shutdown_requested = false) :
    (service_loop_tick s health_ok).1.processes =
        s.processes.filter (fun p => p.poll.isNone) ∧
      (∀ p ∈ (service_loop_tick s health_ok).1.processes, p.poll = none) ∧
      (∀ p ∈ s.processes, ∀ code, p.poll = some code →
        Event.log .warning (.processExited p.pid code) ∈
            (service_loop_tick s health_ok).2 ∧
          p ∉ (service_loop_tick s health_ok).1.processes) ∧
      (service_loop_tick s health_ok).1.running = true ∧
      (service_loop_tick s health_ok).1.shutdown_requested = false ∧
      Event.stopServiceCall ∉ (service_loop_tick s health_ok).2 ∧
      Event.healthStop ∉ (service_loop_tick s health_ok).2 ∧
      Event.startServiceCall ∉ (service_loop_tick s health_ok).2 ∧
      (∀ cmd pid, Event.spawn cmd pid ∉ (service_loop_tick s health_ok).2) ∧
      (∀ pid, Event.sigterm pid ∉ (service_loop_tick s health_ok).2) ∧
      (∀ pid, Event.sigkill pid ∉ (service_loop_tick s health_ok).2) := by
  refine ⟨by simp [service_loop_tick, hr, hs], ?_, ?_, ?_, ?_, ?_, ?_, ?_,
    ?_, ?_, ?_⟩
  · intro p hp
    rw [show (service_loop_tick s health_ok).1.processes =
        s.processes.filter (fun p => p.poll.isNone) by
      simp [service_loop_tick, hr, hs]] at hp
    have := (List.mem_filter.mp hp).2
    simpa [Option.isNone_iff_eq_none] using this
  · intro p hp code hcode
    constructor
    · have : Event.log .warning (.processExited p.pid code) ∈
          s.processes.filterMap (fun p => p.poll.map
            (fun c => Event.log .warning (.processExited p.pid c))) :=
        List.mem_filterMap.mpr ⟨p, hp, by simp [hcode]⟩
      simp only [service_loop_tick, hr, hs]
      simp [this]
    · intro hmem
      rw [show (service_loop_tick s health_ok).1.processes =
          s.processes.filter (fun p => p.poll.isNone) by
        simp [service_loop_tick, hr, hs]] at hmem
      have := (List.mem_filter.mp hmem).2
      simp [hcode] at this
  · simp [service_loop_tick, hr, hs]
  · simp [service_loop_tick, hr, hs]
  · simp [service_loop_tick, hr, hs]
  · simp [service_loop_tick, hr, hs]
  · simp [service_loop_tick, hr, hs]
  · intro cmd pid
    simp [service_loop_tick, hr, hs]
  · intro pid
    simp [service_loop_tick, hr, hs]
  · intro pid
    simp [service_loop_tick, hr, hs]

/-- Witness for C7: a running service with one live and one exited tracked
process; the tick reaps pid 43 (exit code 1), keeps pid 42, and leaves the
supervisor running. -/
theorem service_loop_tick_reaps_exited_witness :
    (service_loop_tick
        ⟨"web", true, false, [⟨42, none, true⟩, ⟨43, some 1, true⟩]⟩
        false).1.processes = [⟨42, none, true⟩] ∧
      Event.log .warning (.processExited 43 1) ∈
        (service_loop_tick
            ⟨"web", true, false, [⟨42, none, true⟩, ⟨43, some 1, true⟩]⟩
            false).2 ∧
      (service_loop_tick
          ⟨"web", true, false, [⟨42, none, true⟩, ⟨43, some 1, true⟩]⟩
          false).1.running = true := by
  have H := service_loop_tick_reaps_exited
    ⟨"web", true, false, [⟨42, none, true⟩, ⟨43, some 1, true⟩]⟩ false rfl rfl
  refine ⟨by rw [H.1]; decide, ?_, H.2.2.2.1⟩
  exact (H.2.2.1 ⟨43, some 1, true⟩ (by decide) 1 rfl).1

/-! ## Claim C8 -/

/-- C8: for every command and every mode (foreground or background, with or
without output capture), a spawn or run failure inside `run_subprocess` is
converted into a `False` return with an error log line — the embedding is a
total function, so no exception reaches the caller — and foreground mode
returns `True` exactly when the command's exit code is zero. -/
theorem run_subprocess_catches_spawn_errors (s : ServiceState)
    (cmd : List String) (captureOutput background : Bool) (b : CmdBehavior) :
    (∀ msg, b = .raisesSpawn msg →
        (run_subprocess s cmd captureOutput background b).1 = .failure ∧
          Event.log .error (.cmdError cmd msg) ∈
            (run_subprocess s cmd captureOutput background b).2.2) ∧
      (∀ p rc outLines errLines, b = .completes p rc outLines errLines →
        background = false →
          ((run_subprocess s cmd captureOutput background b).1 = .success ↔
            rc = 0)) := by
  constructor
  · rintro msg rfl
    simp [run_subprocess]
  · rintro p rc outLines errLines rfl rfl
    by_cases hrc : rc = 0 <;> simp [run_subprocess, hrc]

/-- Witness for C8: a missing executable (spawn raises) in foreground mode
returns failure with the error logged, and a foreground run exiting 0
returns success. -/
theorem run_subprocess_catches_spawn_errors_witness :
    (run_subprocess ⟨"web", true, false, []⟩ ["nonexistent"] true false
        (.raisesSpawn "No such file or directory")).1 = .failure ∧
      Event.log .error (.cmdError ["nonexistent"] "No such file or directory") ∈
        (run_subprocess ⟨"web", true, false, []⟩ ["nonexistent"] true false
            (.raisesSpawn "No such file or directory")).2.2 ∧
      ((run_subprocess ⟨"web", true, false, []⟩ ["true"] true false
          (.completes ⟨9, none, true⟩ 0 [] [])).1 = .success ↔ (0 : Int) = 0) := by
  have H1 := (run_subprocess_catches_spawn_errors ⟨"web", true, false, []⟩
    ["nonexistent"] true false
    (.raisesSpawn "No such file or directory")).1
    "No such file or directory" rfl
  have H2 := (run_subprocess_catches_spawn_errors ⟨"web", true, false, []⟩
    ["true"] true false (.completes ⟨9, none, true⟩ 0 [] [])).2
    ⟨9, none, true⟩ 0 [] [] rfl rfl
  exact ⟨H1.1, H1.2, H2⟩

/-! ## Claim C3 -/

/-- A probe snapshot where every registered probe passes. -/
def c3snapOk : String → ProbeResult := fun _ => .ok

/-- A later snapshot of the same registry where the `log_directory` probe
raises. -/
def c3snapBoom : String → ProbeResult :=
  fun n => if n = "log_directory" then .raises "boom" else .ok

/-- The checker state after a successful `is_healthy()` pass (cached
`health_status = true`). -/
def c3cached : HealthChecker :=
  ((HealthChecker.init "dns").is_healthy c3snapOk 10).2.1

/-- Counterexample to C3: once `health_status` has been cached as true by an
earlier all-passing `is_healthy()`, a `/status` document computed while the
`log_directory` probe raises shows that probe as an "error" entry carrying
the exception message — yet its overall `healthy` field is true, not false
as the claim states, because `get_detailed_status` reports the cached
verdict instead of recomputing it. -/
theorem detailed_status_stale_healthy_counterexample :
    ("log_directory",
        ({ status := "error", healthy := false, error := some "boom" } :
          CheckEntry)) ∈ (c3cached.get_detailed_status c3snapBoom 11).checks ∧
      (c3cached.get_detailed_status c3snapBoom 11).healthy = true := by
  decide

/-- C3 as amended: a probe that raises is isolated — `is_healthy()` logs a
warning naming the probe and its exception, counts it as failed together
with every other non-passing probe, caches a false verdict and returns true
only if zero probes failed or raised; in the detailed status document the
raising probe appears as an "error" entry carrying the exception message and
every registered check name is still present with its own result, but the
`healthy` field reports the verdict cached by the last `is_healthy()` run
(hence false once `is_healthy()` has run while the probe raises), not a
fresh recomputation. -/
theorem is_healthy_isolates_raising_probe (h : HealthChecker)
    (snap : String → ProbeResult) (now : Nat) (name msg : String)
    (hmem : name ∈ h.names) (hraise : snap name = .raises msg) :
    (h.is_healthy snap now).1 = false ∧
      (h.is_healthy snap now).2.1.health_status = false ∧
      Event.log .warning (.probeRaised name msg) ∈ (h.is_healthy snap now).2.2 ∧
      (∀ snap' : String → ProbeResult,
        (h.is_healthy snap' now).1 = true ↔ failedOf h.names snap' = []) ∧
      (∀ n ∈ h.names, snap n ≠ .ok → n ∈ failedOf h.names snap) ∧
      (name, ({ status := "error", healthy := false, error := some msg } :
          CheckEntry)) ∈ (h.get_detailed_status snap now).checks ∧
      (∀ n ∈ h.names, (n, checkEntry (snap n)) ∈
        (h.get_detailed_status snap now).checks) ∧
      (h.get_detailed_status snap now).healthy = h.health_status := by
  have hfail : name ∈ failedOf h.names snap :=
    List.mem_filter.mpr ⟨hmem, by simp [hraise]⟩
  have hne : (failedOf h.names snap).isEmpty = false := by
    cases hmv : failedOf h.names snap with
    | nil => rw [hmv] at hfail; cases hfail
    | cons a l => simp
  refine ⟨by simp [HealthChecker.is_healthy, hne],
    by simp [HealthChecker.is_healthy, hne], ?_, ?_, ?_, ?_, ?_, ?_⟩
  · have : Event.log .warning (.probeRaised name msg) ∈
        h.names.filterMap (fun n =>
          match snap n with
          | .raises m => some (.log .warning (.probeRaised n m))
          | _ => none) :=
      List.mem_filterMap.mpr ⟨name, hmem, by simp [hraise]⟩
    simp [HealthChecker.is_healthy, this]
  · intro snap'
    simp [HealthChecker.is_healthy, List.isEmpty_iff]
  · intro n hn hnok
    exact List.mem_filter.mpr ⟨hn, by simpa using hnok⟩
  · have : (name, checkEntry (snap name)) ∈
        h.names.map (fun n => (n, checkEntry (snap n))) :=
      List.mem_map.mpr ⟨name, hmem, rfl⟩
    rw [hraise] at this
    simpa [HealthChecker.get_detailed_status, checkEntry] using this
  · intro n hn
    exact List.mem_map.mpr ⟨n, hn, rfl⟩
  · simp [HealthChecker.get_detailed_status]

/-- Witness for the amended C3 at the concrete registry whose
`log_directory` probe raises. -/
theorem is_healthy_isolates_raising_probe_witness :
    (c3cached.is_healthy c3snapBoom 11).1 = false ∧
      Event.log .warning (.probeRaised "log_directory" "boom") ∈
        (c3cached.is_healthy c3snapBoom 11).2.2 ∧
      (c3cached.get_detailed_status c3snapBoom 11).healthy =
        c3cached.health_status := by
  have H := is_healthy_isolates_raising_probe c3cached c3snapBoom 11
    "log_directory" "boom" (by decide) (by decide)
  exact ⟨H.1, H.2.2.1, H.2.2.2.2.2.2.2⟩

/-! ## Claim C10 -/

/-- C10: the `ready` field of the detailed status document is monotone and
can go stale — `ready_status` starts false, a `ServiceHealthChecker.is_ready`
evaluation leaves it at `(previous || result)` (so only a successful
evaluation ever sets it and no false evaluation resets it), `is_healthy`
never touches it, the status document merely reports the stored flag, and
once some readiness evaluation has succeeded every later `/status` document
shows `ready = true` regardless of what the probes do then. -/
theorem ready_status_monotone_and_stale (sn : String) (h : HealthChecker)
    (snap : String → ProbeResult) (now : Nat) (uptime_ok : Bool) :
    (HealthChecker.init sn).ready_status = false ∧
      (ServiceHealthChecker.is_ready h snap now uptime_ok).2.1.ready_status =
        (h.ready_status || (ServiceHealthChecker.is_ready h snap now uptime_ok).1) ∧
      (h.is_healthy snap now).2.1.ready_status = h.ready_status ∧
      (h.get_detailed_status snap now).ready = h.ready_status ∧
      ((ServiceHealthChecker.is_ready h snap now uptime_ok).1 = true →
        ∀ (snap' : String → ProbeResult) (now' : Nat),
          ((ServiceHealthChecker.is_ready h snap now
              uptime_ok).2.1.get_detailed_status snap' now').ready = true) := by
  have hmon : (ServiceHealthChecker.is_ready h snap now uptime_ok).2.1.ready_status =
      (h.ready_status || (ServiceHealthChecker.is_ready h snap now uptime_ok).1) := by
    by_cases hfe : failedOf h.names snap = []
    · cases uptime_ok <;>
        simp [ServiceHealthChecker.is_ready, HealthChecker.is_healthy, hfe]
    · simp [ServiceHealthChecker.is_ready, HealthChecker.is_healthy, hfe]
  refine ⟨rfl, hmon, by simp [HealthChecker.is_healthy], ?_, ?_⟩
  · simp [HealthChecker.get_detailed_status]
  · intro hsucc snap' now'
    have : (ServiceHealthChecker.is_ready h snap now uptime_ok).2.1.ready_status =
        true := by
      rw [hmon, hsucc, Bool.or_true]
    simp [HealthChecker.get_detailed_status, this]

/-- Witness for C10: after a successful readiness evaluation on an all-passing
registry, the status document computed while every probe fails still reports
`ready = true`. -/
theorem ready_status_monotone_and_stale_witness :
    ((ServiceHealthChecker.is_ready (HealthChecker.init "dns")
        (fun _ => .ok) 10 true).2.1.get_detailed_status
          (fun _ => .fail) 11).ready = true := by
  have H := ready_status_monotone_and_stale "dns" (HealthChecker.init "dns")
    (fun _ => .ok) 10 true
  exact H.2.2.2.2 (by decide) (fun _ => .fail) 11

/-! ## Claim C5 -/

/-- Whether an attempt outcome is a `CalledProcessError` (non-zero exit). -/
def isCalledError : AttemptOutcome → Bool
  | .calledError _ => true
  | _ => false

/-- One unfolding step of the retry loop. -/
theorem retryGo_fuel_succ (outcomes : Nat → AttemptOutcome)
    (retries delay attempt fuel : Nat) :
    retryGo outcomes retries delay attempt (fuel + 1) =
      match outcomes attempt with
      | .success =>
          (true, attempt + 1,
            if attempt > 0 then [.log .info (.succeededOnAttempt (attempt + 1))]
            else [])
      | .calledError stderr =>
          if attempt < retries then
            ((retryGo outcomes retries delay (attempt + 1) fuel).1,
              (retryGo outcomes retries delay (attempt + 1) fuel).2.1,
              [.log .warning (.attemptFailed (attempt + 1) (retries + 1))] ++
                (if delay > 0 then [.sleep] else []) ++
                (retryGo outcomes retries delay (attempt + 1) fuel).2.2)
          else
            (false, attempt + 1,
              [.log .error (.failedAfterAttempts (retries + 1))] ++
                (match stderr with
                 | some e => [.log .error (.cmdStderr e)]
                 | none => []))
      | .otherError msg =>
          (false, attempt + 1, [.log .error (.unexpectedError msg)]) := by
  cases houtc : outcomes attempt <;> simp [retryGo, houtc]

/-- If the attempts from `attempt` fail with non-zero exits until attempt
`attempt + j` succeeds (within the retry budget), the loop returns true
having invoked the command `attempt + j + 1` times in total. -/
theorem retryGo_succeeds (outcomes : Nat → AttemptOutcome)
    (retries delay : Nat) :
    ∀ j attempt, attempt + j ≤ retries →
      (∀ i, attempt ≤ i → i < attempt + j → isCalledError (outcomes i) = true) →
      outcomes (attempt + j) = .success →
      (retryGo outcomes retries delay attempt (retries + 1 - attempt)).1 = true ∧
        (retryGo outcomes retries delay attempt (retries + 1 - attempt)).2.1 =
          attempt + j + 1 := by
  intro j
  induction j with
  | zero =>
    intro attempt hle _ hsucc
    obtain ⟨f, hf⟩ : ∃ f, retries + 1 - attempt = f + 1 :=
      ⟨retries - attempt, by omega⟩
    rw [hf]
    simp only [Nat.add_zero] at hsucc
    simp [retryGo, hsucc]
  | succ j ih =>
    intro attempt hle hfails hsucc
    obtain ⟨f, hf⟩ : ∃ f, retries + 1 - attempt = f + 1 :=
      ⟨retries - attempt, by omega⟩
    have hce := hfails attempt (Nat.le_refl _) (by omega)
    obtain ⟨e, he⟩ : ∃ e, outcomes attempt = .calledError e := by
      cases hout : outcomes attempt with
      | calledError e => exact ⟨e, rfl⟩
      | success => rw [hout] at hce; simp [isCalledError] at hce
      | otherError m => rw [hout] at hce; simp [isCalledError] at hce
    have hlt : attempt < retries := by omega
    have hf' : f = retries + 1 - (attempt + 1) := by omega
    have ih' := ih (attempt + 1) (by omega)
      (fun i h1 h2 => hfails i (by omega) (by omega))
      (by rw [show attempt + 1 + j = attempt + (j + 1) by omega]; exact hsucc)
    rw [hf]
    rw [← hf'] at ih'
    simp only [retryGo, he, hlt, if_pos]
    exact ⟨ih'.1, by rw [ih'.2]; omega⟩

/-- If every attempt up to the budget fails with a non-zero exit, the loop
returns false after exactly `retries + 1` invocations and surfaces the last
attempt's captured stderr. -/
theorem retryGo_exhausts (outcomes : Nat → AttemptOutcome)
    (retries delay : Nat) :
    ∀ fuel attempt, attempt + fuel = retries + 1 → 1 ≤ fuel →
      (∀ i, attempt ≤ i → i ≤ retries → isCalledError (outcomes i) = true) →
      (retryGo outcomes retries delay attempt fuel).1 = false ∧
        (retryGo outcomes retries delay attempt fuel).2.1 = retries + 1 ∧
        ∀ e, outcomes retries = .calledError (some e) →
          Event.log .error (.cmdStderr e) ∈
            (retryGo outcomes retries delay attempt fuel).2.2 := by
  intro fuel
  induction fuel with
  | zero => intro attempt _ h1; omega
  | succ f ih =>
    intro attempt hsum _ hfails
    have hce := hfails attempt (Nat.le_refl _) (by omega)
    obtain ⟨e, he⟩ : ∃ e, outcomes attempt = .calledError e := by
      cases hout : outcomes attempt with
      | calledError e => exact ⟨e, rfl⟩
      | success => rw [hout] at hce; simp [isCalledError] at hce
      | otherError m => rw [hout] at hce; simp [isCalledError] at hce
    cases f with
    | zero =>
      have hat : attempt = retries := by omega
      rw [retryGo_fuel_succ]
      simp only [he]
      rw [if_neg (by omega : ¬ attempt < retries)]
      refine ⟨rfl, by show attempt + 1 = retries + 1; omega, ?_⟩
      intro e' he'
      rw [← hat] at he'
      rw [he] at he'
      injection he' with hsome
      subst hsome
      simp
    | succ f' =>
      have hlt : attempt < retries := by omega
      have ih' := ih (attempt + 1) (by omega) (by omega)
        (fun i h1 h2 => hfails i (by omega) h2)
      rw [retryGo_fuel_succ]
      simp only [he]
      rw [if_pos hlt]
      refine ⟨ih'.1, ih'.2.1, ?_⟩
      intro e' he'
      exact List.mem_append_right _ (ih'.2.2 e' he')

/-- C5: `run_command_with_retry(command, retries, delay)` executes the
command at most `retries + 1` times: if the first `k ≤ retries` attempts
fail with non-zero exit and attempt `k` succeeds, it returns true after
exactly `k + 1` invocations (so with `retries = 2`, two failures followed by
a success give true after exactly three invocations); if all `retries + 1`
attempts fail with non-zero exit, it returns false only then, and logs the
last attempt's captured stderr. -/
theorem run_with_retry_attempt_counts (outcomes : Nat → AttemptOutcome)
    (retries delay : Nat) :
    (∀ k, k ≤ retries →
      (∀ i, i < k → isCalledError (outcomes i) = true) →
      outcomes k = .success →
      (run_command_with_retry outcomes retries delay).1 = true ∧
        (run_command_with_retry outcomes retries delay).2.1 = k + 1) ∧
      ((∀ i, i ≤ retries → isCalledError (outcomes i) = true) →
        (run_command_with_retry outcomes retries delay).1 = false ∧
          (run_command_with_retry outcomes retries delay).2.1 = retries + 1 ∧
          ∀ e, outcomes retries = .calledError (some e) →
            Event.log .error (.cmdStderr e) ∈
              (run_command_with_retry outcomes retries delay).2.2) := by
  constructor
  · intro k hk hfails hsucc
    have H := retryGo_succeeds outcomes retries delay k 0 (by omega)
      (fun i _ h2 => hfails i (by omega)) (by simpa using hsucc)
    simp only [Nat.sub_zero] at H
    exact ⟨H.1, by rw [run_command_with_retry, H.2]; omega⟩
  · intro hfails
    have H := retryGo_exhausts outcomes retries delay (retries + 1) 0
      (by omega) (by omega) (fun i _ h2 => hfails i h2)
    exact H

/-- The C5 scenario: a command that fails twice (with captured stderr) and
succeeds on the third invocation. -/
def c5outcomes : Nat → AttemptOutcome :=
  fun n => if n < 2 then .calledError (some "err") else .success

/-- Witness for C5: with `retries = 2`, the fail-fail-succeed command yields
true after exactly three invocations. -/
theorem run_with_retry_attempt_counts_witness :
    (run_command_with_retry c5outcomes 2 1).1 = true ∧
      (run_command_with_retry c5outcomes 2 1).2.1 = 3 :=
  (run_with_retry_attempt_counts c5outcomes 2 1).1 2 (by decide)
    (by decide) (by decide)

/-! ## Claim C6 -/

/-- If the process stays alive through every poll of the loop, the loop ends
without observing death, having slept once per iteration. -/
theorem termLoop_all_alive (alive : Nat → Bool) :
    ∀ r idx, (∀ i, idx ≤ i → i < idx + r → alive i = true) →
      termLoop alive idx r = (false, List.replicate r .sleep) := by
  intro r
  induction r with
  | zero => intro idx _; rfl
  | succ r ih =>
    intro idx h
    have h0 : alive idx = true := h idx (Nat.le_refl _) (by omega)
    have := ih (idx + 1) (fun i h1 h2 => h i (by omega) (by omega))
    simp [termLoop, h0, this, List.replicate_succ]

/-- If the process is first observed dead at the `j`-th in-loop poll
(`j < r`), the loop reports it gone after `j` sleeps. -/
theorem termLoop_observes_death (alive : Nat → Bool) :
    ∀ j idx r, j < r → alive (idx + j) = false →
      (∀ i, idx ≤ i → i < idx + j → alive i = true) →
      termLoop alive idx r = (true, List.replicate j .sleep) := by
  intro j
  induction j with
  | zero =>
    intro idx r hr hdead _
    obtain ⟨r', rfl⟩ : ∃ r', r = r' + 1 := ⟨r - 1, by omega⟩
    simp only [Nat.add_zero] at hdead
    simp [termLoop, hdead]
  | succ j ih =>
    intro idx r hr hdead halive
    obtain ⟨r', rfl⟩ : ∃ r', r = r' + 1 := ⟨r - 1, by omega⟩
    have h0 : alive idx = true := halive idx (Nat.le_refl _) (by omega)
    have := ih (idx + 1) r' (by omega)
      (by rw [show idx + 1 + j = idx + (j + 1) by omega]; exact hdead)
      (fun i h1 h2 => halive i (by omega) (by omega))
    simp [termLoop, h0, this, List.replicate_succ]

/-- C6: `terminate_process_gracefully(pid, timeout)` returns true at once
without sending any signal when the pid is not running; on a process that
stays alive through the SIGTERM, all `timeout` one-second polls and the
final check, it sends SIGKILL, sleeps one more second and returns true iff
the process is then confirmed gone; and on a process that dies at the
`(j+1)`-th poll within the timeout it returns true after SIGTERM alone,
never sending SIGKILL. -/
theorem terminate_gracefully_escalates (pid : Nat) (alive : Nat → Bool)
    (afterKillAlive : Bool) (timeout : Nat) :
    (alive 0 = false →
      terminate_process_gracefully pid alive afterKillAlive timeout =
        (true, [])) ∧
      ((∀ i, i ≤ timeout + 1 → alive i = true) →
        terminate_process_gracefully pid alive afterKillAlive timeout =
          (!afterKillAlive, .sigterm pid :: (List.replicate timeout .sleep ++
            [.log .warning (.forceKilling pid), .sigkill pid, .sleep]))) ∧
      (∀ j, j < timeout → alive (j + 1) = false →
        (∀ i, i ≤ j → alive i = true) →
        terminate_process_gracefully pid alive afterKillAlive timeout =
          (true, .sigterm pid :: List.replicate j .sleep)) := by
  refine ⟨?_, ?_, ?_⟩
  · intro h0
    simp [terminate_process_gracefully, h0]
  · intro h
    have h0 : alive 0 = true := h 0 (by omega)
    have hloop : termLoop alive 1 timeout = (false, List.replicate timeout .sleep) :=
      termLoop_all_alive alive timeout 1 (fun i h1 h2 => h i (by omega))
    have hfin : alive (timeout + 1) = true := h (timeout + 1) (Nat.le_refl _)
    simp [terminate_process_gracefully, h0, hloop, hfin]
  · intro j hj hdead halive
    have h0 : alive 0 = true := halive 0 (by omega)
    have hloop : termLoop alive 1 timeout = (true, List.replicate j .sleep) :=
      termLoop_observes_death alive j 1 timeout hj
        (by rw [show 1 + j = j + 1 by omega]; exact hdead)
        (fun i h1 h2 => halive i (by omega))
    simp [terminate_process_gracefully, h0, hloop]

/-- Witness for C6: a pid-7 process that ignores SIGTERM for longer than the
2-second timeout is SIGKILLed and the call returns true. -/
theorem terminate_gracefully_escalates_witness :
    terminate_process_gracefully 7 (fun _ => true) false 2 =
      (true, .sigterm 7 :: (List.replicate 2 .sleep ++
        [.log .warning (.forceKilling 7), .sigkill 7, .sleep])) := by
  have H := (terminate_gracefully_escalates 7 (fun _ => true) false 2).2.1
    (by intro i _; rfl)
  simpa using H

end PodServe
